import Mathlib

/-!
Shallow embedding of the real-time audio recording / transcription server
(src/recording/server.ts) of the guild-bot repository, together with proofs
about the behaviour of its pure helpers (WAV encoding, timestamp conversion,
caption stitching) and of its session state machine (ingestion, chunking,
stop, drain loop, finalization).

Modelling conventions:
* JS numbers used as integers become `Nat`/`Int`; fractional seconds become
  `ℚ` (the double-precision computations of the source are exact at the
  granularities the claims quantify over, and the millisecond claims state
  themselves "within floating rounding at the millisecond").
* Node `Buffer`s become `List Nat` (byte values).
* The file system becomes a finite map from paths to file data; the
  out-of-process speech-to-text adapter (src/interfaces/whisper, an external
  collaborator per the spec) becomes an oracle `Nat → Option String` indexed
  by the call sequence number: `none` models `transcribeWithWhisper` throwing
  (nonzero exit or missing output), `some raw` models success having written
  `raw` to the requested caption path.
* The single-threaded event loop is modelled by running each handler's
  synchronous mutations to completion and then the drain loop it kicks
  (`void processQueue(...)`) as a separate step.
-/

/-! ## Timestamp utilities (server.ts lines 86-104) -/

/-- JS `n.toString().padStart(w, '0')`: left-pad with zeros, never truncate. -/
def padStart (s : String) (w : Nat) : String :=
  if w ≤ s.length then s else String.mk (List.replicate (w - s.length) '0') ++ s

/-- Attempt to match the regex `(\d{2}):(\d{2}):(\d{2})\.(\d{3})` at the head of
a character list, returning the four captured numeric groups. -/
def matchTs : List Char → Option (Nat × Nat × Nat × Nat)
  | c1 :: c2 :: ':' :: c3 :: c4 :: ':' :: c5 :: c6 :: '.' :: c7 :: c8 :: c9 :: _ =>
    if c1.isDigit && c2.isDigit && c3.isDigit && c4.isDigit && c5.isDigit && c6.isDigit
        && c7.isDigit && c8.isDigit && c9.isDigit then
      some (10 * (c1.toNat - 48) + (c2.toNat - 48),
            10 * (c3.toNat - 48) + (c4.toNat - 48),
            10 * (c5.toNat - 48) + (c6.toNat - 48),
            100 * (c7.toNat - 48) + 10 * (c8.toNat - 48) + (c9.toNat - 48))
    else none
  | _ => none

/-- Unanchored first-match regex search, scanning positions left to right as
`String.prototype.match` does for the pattern above. -/
def searchTs : List Char → Option (Nat × Nat × Nat × Nat)
  | [] => none
  | c :: rest =>
    match matchTs (c :: rest) with
    | some r => some r
    | none => searchTs rest

/-- `tsToSeconds` (server.ts lines 86-94): parse `HH:MM:SS.mmm`; malformed
input yields `0`. -/
def tsToSeconds (ts : String) : ℚ :=
  match searchTs ts.data with
  | none => 0
  | some (h, mnt, s, ms) =>
    (h : ℚ) * 3600 + (mnt : ℚ) * 60 + (s : ℚ) + (ms : ℚ) / 1000

/-- JS `Math.round`: round half toward positive infinity. -/
def jsRound (q : ℚ) : ℤ := Rat.floor (q + 1 / 2)

/-- `secondsToTs` (server.ts lines 96-104): format seconds as `HH:MM:SS.mmm`
with zero padding, milliseconds rounded to nearest. -/
def secondsToTs (sec : ℚ) : String :=
  let h : ℤ := Rat.floor (sec / 3600)
  let rem : ℚ := sec - (h : ℚ) * 3600
  let m : ℤ := Rat.floor (rem / 60)
  let s : ℤ := Rat.floor (rem - (m : ℚ) * 60)
  let ms : ℤ := jsRound ((sec - ((Rat.floor sec : ℤ) : ℚ)) * 1000)
  padStart h.repr 2 ++ ":" ++ padStart m.repr 2 ++ ":" ++ padStart s.repr 2 ++
    "." ++ padStart ms.repr 3

/-- The canonical rendering of a timestamp quadruple, i.e. the shape every
well-formed `HH:MM:SS.mmm` string has. -/
def mkTs (h m s ms : Nat) : String :=
  padStart (Nat.repr h) 2 ++ ":" ++ padStart (Nat.repr m) 2 ++ ":" ++
    padStart (Nat.repr s) 2 ++ "." ++ padStart (Nat.repr ms) 3

/-! ## WAV encoder (server.ts lines 60-84) -/

/-- Little-endian byte layout of `Buffer.writeUInt16LE`. -/
def u16le (v : Nat) : List Nat := [v % 256, v / 256 % 256]

/-- Little-endian byte layout of `Buffer.writeUInt32LE`. -/
def u32le (v : Nat) : List Nat :=
  [v % 256, v / 256 % 256, v / 65536 % 256, v / 16777216 % 256]

/-- `makeWav` (server.ts lines 60-84): a fixed 44-byte RIFF header followed by
the PCM payload.  The byte list is the exact sequence produced by the source's
sequential writes at offsets 0,4,8,12,16,20,22,24,28,32,34,36,40 (the ASCII
tags RIFF, WAVE, fmt-space and data appear as their character codes).  `none`
models Node's `Buffer.writeUIntNLE` throwing `ERR_OUT_OF_RANGE` when a field
value exceeds the field width, which in the source propagates as an
exception instead of returning a buffer. -/
def makeWav (pcm : List Nat) (rate channels : Nat) : Option (List Nat) :=
  let bitsPerSample := 16
  let byteRate := rate * channels * bitsPerSample / 8
  let blockAlign := channels * bitsPerSample / 8
  let dataSize := pcm.length
  let fmtChunkSize := 16
  let riffChunkSize := 4 + (8 + fmtChunkSize) + (8 + dataSize)
  if riffChunkSize ≤ 4294967295 ∧ channels ≤ 65535 ∧ rate ≤ 4294967295 ∧
      byteRate ≤ 4294967295 ∧ blockAlign ≤ 65535 ∧ dataSize ≤ 4294967295 then
    some ([82, 73, 70, 70] ++ u32le riffChunkSize ++ [87, 65, 86, 69] ++
      [102, 109, 116, 32] ++ u32le fmtChunkSize ++ u16le 1 ++ u16le channels ++
      u32le rate ++ u32le byteRate ++ u16le blockAlign ++ u16le bitsPerSample ++
      [100, 97, 116, 97] ++ u32le dataSize ++ pcm)
  else none

/-- Decode a 16-bit little-endian field of a byte list. -/
def readU16LE (l : List Nat) (off : Nat) : Nat := l.getD off 0 + 256 * l.getD (off + 1) 0

/-- Decode a 32-bit little-endian field of a byte list. -/
def readU32LE (l : List Nat) (off : Nat) : Nat :=
  l.getD off 0 + 256 * l.getD (off + 1) 0 + 65536 * l.getD (off + 2) 0 +
    16777216 * l.getD (off + 3) 0

/-! ## Caption stitcher (server.ts lines 106-141) -/

/-- The per-line loop body of `appendVttWithOffset` (server.ts lines 111-137):
`out` accumulates the rewritten lines in reverse, `expectText` mirrors the
source's `expectTextPrefix` flag.  A line containing `-->` is a timing line
(`l.split('-->')` with the first two parts destructured); the `WEBVTT` banner
line is consumed; the first non-blank line after a timing line gets the
voice-tag prefix when a (truthy, i.e. non-empty) user name is known, with `<`
and `>` stripped from the name. -/
def stitchLines (offsetSec : ℚ) (userName : Option String) :
    List String → List String → Bool → List String
  | [], out, _ => out.reverse
  | l :: rest, out, expectText =>
    if 2 ≤ (l.splitOn "-->").length then
      let a := (l.splitOn "-->").getD 0 ""
      let b := (l.splitOn "-->").getD 1 ""
      let as := tsToSeconds a.trim + offsetSec
      let bs := tsToSeconds b.trim + offsetSec
      stitchLines offsetSec userName rest
        ((secondsToTs as ++ " --> " ++ secondsToTs bs) :: out) true
    else if l.trim = "WEBVTT" then
      stitchLines offsetSec userName rest out expectText
    else
      let pushed :=
        if expectText = true ∧ l.trim ≠ "" then
          match userName with
          | some n =>
            if n ≠ "" then "<v " ++ (n.replace "<" "").replace ">" "" ++ "> " ++ l else l
          | none => l
        else l
      let e1 := if expectText = true ∧ l.trim ≠ "" then false else expectText
      let e2 := if l.trim = "" then false else e1
      stitchLines offsetSec userName rest (pushed :: out) e2

/-- `appendVttWithOffset` (server.ts lines 106-141) acting on file contents:
`dest` is the cumulative caption file's current content (`none` models the
file not existing yet, in which case the `WEBVTT` banner is written first),
`raw` is the chunk caption file's content; the result is the cumulative file's
new content.  Splitting on `\r?\n` is modelled by collapsing CRLF before
splitting on LF, which matches the regex split. -/
def appendVttWithOffset (dest : Option String) (raw : String) (offsetSec : ℚ)
    (userName : Option String) : String :=
  let lines := (raw.replace "\r\n" "\n").splitOn "\n"
  let out := stitchLines offsetSec userName lines [] false
  let base := match dest with
    | none => "WEBVTT\n\n"
    | some c => c
  base ++ String.intercalate "\n" out ++ "\n"

/-! ## Session data model (server.ts lines 9-41)

The WAV-persistence fields of the source's `UserState` (`wavPath`, `bytes`,
`stream`, `samplesWritten`) and the audio-persistence side effects that use
them (server.ts lines 296-342 and the per-user finalization block, lines
188-234) only exist when `includeAudio` is on and are referenced by no claim;
they are omitted from the model. -/

structure UserState where
  buf : List Nat
  elapsedSec : ℚ
  chunkIndex : Nat
  userName : Option String
  deriving Repr, DecidableEq

structure QueueItem where
  userId : String
  buf : List Nat
  deriving Repr, DecidableEq

structure Session where
  id : String
  rate : Nat
  channels : Nat
  bytesPerSec : Nat
  bytesPerChunk : Nat
  dir : String
  vttPath : String
  includeAudio : Bool
  users : List (String × UserState)
  queue : List QueueItem
  processing : Bool
  closed : Bool
  startNs : Nat
  endNs : Option Nat
  deriving Repr, DecidableEq

/-- A completion notification `{type:'done', recordingId, vttPath}` as sent to
subscribers (server.ts lines 241 and 372); `vttPath = none` models JSON
`null`. -/
structure DoneMsg where
  recordingId : String
  vttPath : Option String
  deriving Repr, DecidableEq

inductive FileData where
  | bin (bytes : List Nat)
  | txt (content : String)
  deriving Repr, DecidableEq

/-- The process-wide mutable state: the three module-level registries
(`SESSIONS`, `SUBSCRIBERS` — modelled as a per-recording count of listener
connections — and `SESSION_PREFS`), the file system as a path-keyed map, the
ordered list of completion notifications sent so far, and the number of
transcription-adapter invocations made so far (the index fed to the oracle). -/
structure GState where
  sessions : List (String × Session)
  subscribers : List (String × Nat)
  prefs : List (String × Bool)
  files : List (String × FileData)
  notifications : List DoneMsg
  calls : Nat
  deriving Repr, DecidableEq

/-- Association-list lookup, modelling `Map.get`. -/
def lookupA {α : Type} : List (String × α) → String → Option α
  | [], _ => none
  | (k, v) :: rest, key => if k = key then some v else lookupA rest key

/-- Association-list insert/update, modelling `Map.set`: updates the existing
entry in place, otherwise appends — preserving JS `Map` insertion order. -/
def putA {α : Type} : List (String × α) → String → α → List (String × α)
  | [], key, v => [(key, v)]
  | (k, w) :: rest, key, v =>
    if k = key then (key, v) :: rest else (k, w) :: putA rest key v

/-- Association-list removal, modelling `Map.delete`. -/
def eraseA {α : Type} : List (String × α) → String → List (String × α)
  | [], _ => []
  | (k, w) :: rest, key => if k = key then rest else (k, w) :: eraseA rest key

def emptyGState : GState :=
  { sessions := [], subscribers := [], prefs := [], files := [], notifications := [],
    calls := 0 }

/-! ## Session manager operations (server.ts lines 143-400, 406-475) -/

/-- `os.tmpdir() + '/discord-rec-chunks'` (server.ts line 146). -/
def tmpChunkDir : String := "/tmp/discord-rec-chunks"

/-- `path.resolve(process.cwd(), '.tmp', 'recordings', recId)`
(server.ts line 271), with the working directory elided. -/
def recordingsDir (recId : String) : String := ".tmp/recordings/" ++ recId

/-- Session construction on first audio for an unseen recording id
(server.ts lines 270-290); `nowNs` models `process.hrtime.bigint()`. -/
def newSession (recId : String) (rate channels : Nat) (includeAudio : Bool)
    (nowNs : Nat) : Session :=
  { id := recId
    rate := rate
    channels := channels
    bytesPerSec := rate * channels * 2
    bytesPerChunk := rate * channels * 2 * 10
    dir := recordingsDir recId
    vttPath := recordingsDir recId ++ "/audio.vtt"
    includeAudio := includeAudio
    users := []
    queue := []
    processing := false
    closed := false
    startNs := nowNs
    endNs := none }

/-- `takeBytes` (server.ts lines 263-266). -/
def takeBytes (buf : List Nat) (count : Nat) : List Nat × List Nat :=
  if buf.length ≤ count then (buf, []) else (buf.take count, buf.drop count)

/-- The chunk-slicing while-loop of `handlePcm` (server.ts lines 345-349):
while the buffer holds at least `bpc` bytes, slice one chunk off and keep the
remainder; returns the chunks in push order and the final remainder.  The
loop is modelled by structural recursion on a fuel initialised to the buffer
length, which the guarded path can never exhaust since every iteration
removes at least one byte (`chunkLoopF_join` and friends never need more
fuel).  With `bpc = 0` the source loop would not terminate; the guard's
positivity test makes the model total in that degenerate case. -/
def chunkLoopF : Nat → Nat → List Nat → List (List Nat) × List Nat
  | 0, _, buf => ([], buf)
  | fuel + 1, bpc, buf =>
    if 0 < bpc ∧ bpc ≤ buf.length then
      let p := takeBytes buf bpc
      let r := chunkLoopF fuel bpc p.2
      (p.1 :: r.1, r.2)
    else ([], buf)

def chunkLoop (bpc : Nat) (buf : List Nat) : List (List Nat) × List Nat :=
  chunkLoopF buf.length bpc buf

/-- `subscribe` (server.ts lines 42-54): register one more (new) listener
connection for a recording; the close-handler removal is connection-level and
outside the claims' scope. -/
def subscribe (st : GState) (recId : String) : GState :=
  { st with
    subscribers := putA st.subscribers recId (((lookupA st.subscribers recId).getD 0) + 1) }

/-- The session `handlePcm` operates on: the existing one for `recId`, or the
one lazily created from the sticky preference (server.ts lines 269-291). -/
def sessionFor (st : GState) (nowNs : Nat) (recId : String) (rate channels : Nat) : Session :=
  match lookupA st.sessions recId with
  | some s => s
  | none => newSession recId rate channels ((lookupA st.prefs recId).getD false) nowNs

/-- The speaker state `handlePcm` operates on: the existing one, or the fresh
zero state created on first frame from that speaker (server.ts lines 295-315). -/
def userFor (sess : Session) (userId : String) : UserState :=
  match lookupA sess.users userId with
  | some u => u
  | none => { buf := [], elapsedSec := 0, chunkIndex := 0, userName := none }

/-- `handlePcm` (server.ts lines 268-352): the synchronous ingestion mutations
— lazy session creation (reading the sticky preference), lazy speaker-state
creation, buffer append and chunk slicing onto the work queue.  The trailing
`void processQueue(session)` kick (line 351) is modelled as a separate
`processQueue` application, matching the event-loop ordering in which these
synchronous mutations complete before the drain loop's file work. -/
def handlePcm (st : GState) (nowNs : Nat) (recId : String) (rate channels : Nat)
    (pcm : List Nat) (userId : String) : GState :=
  let sess := sessionFor st nowNs recId rate channels
  let u := userFor sess userId
  let r := chunkLoop sess.bytesPerChunk (u.buf ++ pcm)
  let sess2 := { sess with
    users := putA sess.users userId { u with buf := r.2 },
    queue := sess.queue ++ r.1.map (fun c => { userId := userId, buf := c }) }
  { st with sessions := putA st.sessions recId sess2 }

/-- The decoded fields of a structured audio envelope that
`handleAudioMessage` reads (server.ts lines 354-363); `none` models an absent
field. -/
structure AudioMsg where
  recordingId : Option String
  rate : Option Nat
  channels : Option Nat
  userId : Option String
  payload : List Nat
  deriving Repr, DecidableEq

/-- JS `String(x || dflt)` for the identifier fields: an absent value, and the
falsy empty string, fall back to the default. -/
def strOr (v : Option String) (dflt : String) : String :=
  match v with
  | some s => if s = "" then dflt else s
  | none => dflt

/-- JS `Number(x || dflt)` for the numeric fields: an absent value, and the
falsy zero, fall back to the default. -/
def numOr (v : Option Nat) (dflt : Nat) : Nat :=
  match v with
  | some n => if n = 0 then dflt else n
  | none => dflt

/-- `handleAudioMessage` (server.ts lines 354-363).  The guard
`if (!pcm) return` on line 361 never fires for a `Buffer` payload — Buffers
are truthy objects even when empty — so no payload-emptiness check exists on
this path. -/
def handleAudioMessage (st : GState) (nowNs : Nat) (msg : AudioMsg) : GState :=
  let recId := strOr msg.recordingId ""
  if recId = "" then st
  else
    handlePcm st nowNs recId (numOr msg.rate 48000) (numOr msg.channels 2)
      msg.payload (strOr msg.userId "unknown")

/-- Per-connection context (server.ts line 413). -/
structure ConnCtx where
  recId : Option String
  rate : Nat
  channels : Nat
  deriving Repr, DecidableEq

/-- The raw-PCM fallback path of the connection message handler (server.ts
lines 461-466): a binary frame that does not decode as a structured envelope
is subscribed and ingested for the connection's current recording with the
fixed speaker identity `"unknown"`; a no-op when the connection has no
recording id from a prior init. -/
def handleRawFrame (st : GState) (nowNs : Nat) (ctx : ConnCtx) (data : List Nat) : GState :=
  match ctx.recId with
  | none => st
  | some recId =>
    handlePcm (subscribe st recId) nowNs recId ctx.rate ctx.channels data "unknown"

/-- The oracle interface to the speech-to-text adapter
(`transcribeWithWhisper`, an out-of-process `whisper-cli` invocation): indexed
by the adapter call counter; `none` models the adapter throwing (nonzero exit
or missing output file), `some raw` models success having written `raw` as the
chunk caption file. -/
def Oracle : Type := Nat → Option String

/-- `processChunk` (server.ts lines 143-170).  Exceptions — missing user state
(line 144's non-null assertion), a buffer-write range error in `makeWav`, or
an adapter failure — propagate to the caller from the throw point, so the
returned state reflects exactly the effects performed before the throw: in
particular the `elapsedSec`/`chunkIndex` advance (lines 160-162) and the
temp-file unlinks (lines 164-169) run only after a successful transcription
and stitch. -/
def processChunk (oracle : Oracle) (st : GState) (sess : Session)
    (userId : String) (pcmChunk : List Nat) : GState × Session :=
  match lookupA sess.users userId with
  | none => (st, sess)
  | some u =>
    let base := sess.id ++ "-" ++ userId ++ "-" ++ padStart (Nat.repr u.chunkIndex) 4
    let wavTmp := tmpChunkDir ++ "/" ++ base ++ ".wav"
    let vttTmp := tmpChunkDir ++ "/" ++ base ++ ".vtt"
    match makeWav pcmChunk sess.rate sess.channels with
    | none => (st, sess)
    | some wav =>
      let st1 := { st with files := putA st.files wavTmp (FileData.bin wav) }
      let res := oracle st1.calls
      let st2 := { st1 with calls := st1.calls + 1 }
      match res with
      | none => (st2, sess)
      | some raw =>
        let st3 := { st2 with files := putA st2.files vttTmp (FileData.txt raw) }
        let dest := match lookupA st3.files sess.vttPath with
          | some (FileData.txt c) => some c
          | _ => none
        let newContent := appendVttWithOffset dest raw u.elapsedSec u.userName
        let st4 := { st3 with
          files := putA st3.files sess.vttPath (FileData.txt newContent) }
        let secs := (pcmChunk.length : ℚ) / (sess.bytesPerSec : ℚ)
        let u2 : UserState :=
          { u with elapsedSec := u.elapsedSec + secs, chunkIndex := u.chunkIndex + 1 }
        let sess2 := { sess with users := putA sess.users userId u2 }
        let st5 := { st4 with files := eraseA (eraseA st4.files wavTmp) vttTmp }
        (st5, sess2)

/-- The while-loop of `processQueue` (server.ts lines 176-183): shift and
process queue items in FIFO order; a chunk failure is caught and logged and
the loop continues with the next item. -/
def drainItems (oracle : Oracle) : List QueueItem → GState → Session → GState × Session
  | [], st, sess => (st, sess)
  | item :: rest, st, sess =>
    let r := processChunk oracle st sess item.userId item.buf
    drainItems oracle rest r.1 r.2

/-- `processQueue` (server.ts lines 172-261): the single-flight drain loop
and, when the session is closed and fully drained, finalization — clear the
user map, send the completion notification (carrying `sess.vttPath`) to the
recording's subscribers if any, and delete the subscriber set, the sticky
preference and the session itself.  In this sequential model the loop runs to
completion at once over the queue captured at entry (nothing enqueues during a
drain in the scenarios the claims quantify over), so the source's
`closed && queue.length === 0` finalization test reduces to `closed`.  The
per-user WAV finalization block (lines 188-234) only acts when `includeAudio`
is on and touches no state a claim references; it is omitted. -/
def processQueue (oracle : Oracle) (st : GState) (recId : String) : GState :=
  match lookupA st.sessions recId with
  | none => st
  | some sess =>
    if sess.processing then st
    else
      let r := drainItems oracle sess.queue st { sess with processing := true }
      let st1 := r.1
      let sess1 := { r.2 with processing := false, queue := [] }
      if sess1.closed then
        let sess2 := { sess1 with users := [] }
        let st2 := { st1 with sessions := putA st1.sessions recId sess2 }
        let st3 :=
          if 0 < (lookupA st2.subscribers sess.id).getD 0 then
            { st2 with notifications := st2.notifications ++
              [{ recordingId := sess.id, vttPath := some sess.vttPath }] }
          else st2
        { st3 with
          subscribers := eraseA st3.subscribers sess.id,
          prefs := eraseA st3.prefs sess.id,
          sessions := eraseA st3.sessions sess.id }
      else { st1 with sessions := putA st1.sessions recId sess1 }

/-- The per-speaker tail-flush loop of `handleStop` (server.ts lines 391-396):
one pass over the user map in insertion order, pushing each non-empty pending
buffer as a final (possibly undersized) work item and emptying that buffer. -/
def stopTails : List (String × UserState) → List QueueItem × List (String × UserState)
  | [] => ([], [])
  | (uid, u) :: rest =>
    let r := stopTails rest
    if 0 < u.buf.length then
      ({ userId := uid, buf := u.buf } :: r.1, (uid, { u with buf := [] }) :: r.2)
    else (r.1, (uid, u) :: r.2)

/-- Lines 388-398 of `handleStop`: stamp the session's end time, move each
speaker's pending buffer onto the work queue as a final short chunk, and mark
the session closed (the subsequent `void processQueue(sess)` kick is the
separate drain step). -/
def stopEnqueue (sess : Session) (nowNs : Nat) : Session :=
  let r := stopTails sess.users
  { sess with
    endNs := some nowNs
    queue := sess.queue ++ r.1
    users := r.2
    closed := true }

/-- `handleStop` (server.ts lines 365-400): for an unknown recording id,
immediately notify subscribers (if any) of completion with a `null` caption
path and clear the bookkeeping; otherwise stamp the end time, flush the
per-speaker tails, mark closed and run the drain. -/
def handleStop (oracle : Oracle) (st : GState) (nowNs : Nat) (recId : String) : GState :=
  match lookupA st.sessions recId with
  | none =>
    let st1 :=
      if 0 < (lookupA st.subscribers recId).getD 0 then
        { st with notifications := st.notifications ++
          [{ recordingId := recId, vttPath := none }] }
      else st
    { st1 with
      subscribers := eraseA st1.subscribers recId,
      prefs := eraseA st1.prefs recId }
  | some sess =>
    processQueue oracle
      { st with sessions := putA st.sessions recId (stopEnqueue sess nowNs) } recId

/-- The pending-buffer invariant of the session manager: every speaker's
unflushed PCM buffer holds strictly fewer bytes than its session's
bytes-per-chunk. -/
def bufInv (st : GState) : Prop :=
  ∀ p ∈ st.sessions, ∀ q ∈ p.2.users, q.2.buf.length < p.2.bytesPerChunk

/-- A concrete two-speaker session: speaker `a` has pending data, speaker `b`
has an empty pending buffer. -/
def sessW : Session :=
  { id := "r", rate := 1, channels := 1, bytesPerSec := 2, bytesPerChunk := 20,
    dir := ".tmp/recordings/r", vttPath := ".tmp/recordings/r/audio.vtt",
    includeAudio := false,
    users := [("a", { buf := [1, 2], elapsedSec := 0, chunkIndex := 0, userName := none }),
              ("b", { buf := [], elapsedSec := 0, chunkIndex := 0, userName := none })],
    queue := [], processing := false, closed := false, startNs := 0, endNs := none }

/-- A connection context with a known recording id (set by a prior init). -/
def rawCtx (recId : String) (rate channels : Nat) : ConnCtx :=
  { recId := some recId, rate := rate, channels := channels }

/-- A structured audio envelope that carries a payload but no `userId`. -/
def noUserMsg (recId : String) (p : List Nat) : AudioMsg :=
  { recordingId := some recId, rate := none, channels := none, userId := none, payload := p }

/-- The shared `"unknown"`-speaker state after two unattributed ingests: the
remainder of chunking the first payload, re-chunked with the second appended;
never advanced in elapsed seconds or chunk index by ingestion alone. -/
def unknownUser2 (rate channels : Nat) (p1 p2 : List Nat) : UserState :=
  { buf := (chunkLoop (rate * channels * 2 * 10)
      ((chunkLoop (rate * channels * 2 * 10) p1).2 ++ p2)).2
    elapsedSec := 0
    chunkIndex := 0
    userName := none }

/-- An adapter oracle that always fails (every transcription call throws). -/
def oracleNone : Oracle := fun _ => none

/-- An adapter oracle whose first call fails and whose later calls succeed
with one cue (`hello` at `00:00:00.000 --> 00:00:01.000`). -/
def vttHello : String := "WEBVTT\n\n00:00:00.000 --> 00:00:01.000\nhello\n"

def oracleFailThenOk : Oracle := fun k => if k = 0 then none else some vttHello

/-- One 10-second chunk (20 bytes at rate 1, mono) of speaker `a`. -/
def msgA20 : AudioMsg :=
  { recordingId := some "r", rate := some 1, channels := some 1, userId := some "a",
    payload := List.replicate 20 0 }

/-- Two 10-second chunks (40 bytes at rate 1, mono) of speaker `a`. -/
def msgA40 : AudioMsg :=
  { recordingId := some "r", rate := some 1, channels := some 1, userId := some "a",
    payload := List.replicate 40 0 }

/-- One chunk of speaker `a` ingested and one subscriber registered. -/
def stW : GState := subscribe (handleAudioMessage emptyGState 0 msgA20) "r"

/-- The session `stW` holds: one queued chunk for `a`, empty pending buffer. -/
def sessA20 : Session :=
  { id := "r", rate := 1, channels := 1, bytesPerSec := 2, bytesPerChunk := 20,
    dir := ".tmp/recordings/r", vttPath := ".tmp/recordings/r/audio.vtt",
    includeAudio := false,
    users := [("a", { buf := [], elapsedSec := 0, chunkIndex := 0, userName := none })],
    queue := [{ userId := "a", buf := List.replicate 20 0 }],
    processing := false, closed := false, startNs := 0, endNs := none }

/-- `stW` stopped and drained with every transcription call failing. -/
def stRunFail : GState := handleStop oracleNone stW 3 "r"

/-- Two chunks of speaker `a` ingested, then stopped and drained with the
first transcription call failing and the second succeeding. -/
def stRunTwo : GState :=
  handleStop oracleFailThenOk (handleAudioMessage emptyGState 0 msgA40) 5 "r"

/-! ## Properties and claim theorems -/

/-! ## Bridging facts for the timestamp utilities -/

theorem ratFloor_eq (q : ℚ) : Rat.floor q = ⌊q⌋ :=
  (Rat.floor_def' q).trans Rat.floor_def.symm

theorem intRepr_coe (n : Nat) : ((n : ℤ)).repr = Nat.repr n := rfl

theorem pad2_repr : ∀ n, n < 100 →
    padStart (Nat.repr n) 2 = String.mk [Nat.digitChar (n / 10), Nat.digitChar (n % 10)] := by
  decide

set_option maxHeartbeats 1000000 in
set_option maxRecDepth 10000 in
theorem pad3_repr : ∀ n, n < 1000 →
    padStart (Nat.repr n) 3 =
      String.mk [Nat.digitChar (n / 100), Nat.digitChar (n / 10 % 10), Nat.digitChar (n % 10)] := by
  decide

theorem isDigit_digitChar : ∀ d, d < 10 → (Nat.digitChar d).isDigit = true := by decide

theorem toNat_digitChar : ∀ d, d < 10 → (Nat.digitChar d).toNat - 48 = d := by decide

theorem data_mkTs (h m s ms : Nat) (hh : h < 100) (hm : m < 100) (hs : s < 100)
    (hms : ms < 1000) :
    (mkTs h m s ms).data =
      [Nat.digitChar (h / 10), Nat.digitChar (h % 10), ':',
       Nat.digitChar (m / 10), Nat.digitChar (m % 10), ':',
       Nat.digitChar (s / 10), Nat.digitChar (s % 10), '.',
       Nat.digitChar (ms / 100), Nat.digitChar (ms / 10 % 10), Nat.digitChar (ms % 10)] := by
  simp [mkTs, pad2_repr _ hh, pad2_repr _ hm, pad2_repr _ hs, pad3_repr _ hms,
    String.data_append]

theorem tsToSeconds_mkTs (h m s ms : Nat) (hh : h < 100) (hm : m < 100) (hs : s < 100)
    (hms : ms < 1000) :
    tsToSeconds (mkTs h m s ms) =
      (h : ℚ) * 3600 + (m : ℚ) * 60 + (s : ℚ) + (ms : ℚ) / 1000 := by
  have d1 : h / 10 < 10 := by omega
  have d2 : h % 10 < 10 := by omega
  have d3 : m / 10 < 10 := by omega
  have d4 : m % 10 < 10 := by omega
  have d5 : s / 10 < 10 := by omega
  have d6 : s % 10 < 10 := by omega
  have d7 : ms / 100 < 10 := by omega
  have d8 : ms / 10 % 10 < 10 := by omega
  have d9 : ms % 10 < 10 := by omega
  have e1 : 10 * (h / 10) + h % 10 = h := by omega
  have e2 : 10 * (m / 10) + m % 10 = m := by omega
  have e3 : 10 * (s / 10) + s % 10 = s := by omega
  have e4 : 100 * (ms / 100) + 10 * (ms / 10 % 10) + ms % 10 = ms := by omega
  rw [tsToSeconds, data_mkTs h m s ms hh hm hs hms]
  simp only [searchTs, matchTs, isDigit_digitChar _ d1, isDigit_digitChar _ d2,
    isDigit_digitChar _ d3, isDigit_digitChar _ d4, isDigit_digitChar _ d5,
    isDigit_digitChar _ d6, isDigit_digitChar _ d7, isDigit_digitChar _ d8,
    isDigit_digitChar _ d9, toNat_digitChar _ d1, toNat_digitChar _ d2, toNat_digitChar _ d3,
    toNat_digitChar _ d4, toNat_digitChar _ d5, toNat_digitChar _ d6, toNat_digitChar _ d7,
    toNat_digitChar _ d8, toNat_digitChar _ d9, Bool.and_self, if_true]
  rw [e1, e2, e3, e4]

theorem secondsToTs_val (h m s ms : Nat) (hm : m ≤ 59) (hs : s ≤ 59) (hms : ms ≤ 999) :
    secondsToTs ((h : ℚ) * 3600 + (m : ℚ) * 60 + (s : ℚ) + (ms : ℚ) / 1000) = mkTs h m s ms := by
  have hm' : (m : ℚ) ≤ 59 := by exact_mod_cast hm
  have hs' : (s : ℚ) ≤ 59 := by exact_mod_cast hs
  have hms' : (ms : ℚ) ≤ 999 := by exact_mod_cast hms
  have h0h : (0 : ℚ) ≤ (h : ℚ) := Nat.cast_nonneg h
  have h0m : (0 : ℚ) ≤ (m : ℚ) := Nat.cast_nonneg m
  have h0s : (0 : ℚ) ≤ (s : ℚ) := Nat.cast_nonneg s
  have h0ms : (0 : ℚ) ≤ (ms : ℚ) := Nat.cast_nonneg ms
  have f1 : ⌊((h : ℚ) * 3600 + (m : ℚ) * 60 + (s : ℚ) + (ms : ℚ) / 1000) / 3600⌋ = (h : ℤ) := by
    rw [Int.floor_eq_iff]
    constructor
    · rw [le_div_iff₀ (by norm_num : (0:ℚ) < 3600)]
      push_cast
      linarith
    · rw [div_lt_iff₀ (by norm_num : (0:ℚ) < 3600)]
      push_cast
      linarith
  have f2 : ⌊(((h : ℚ) * 3600 + (m : ℚ) * 60 + (s : ℚ) + (ms : ℚ) / 1000) -
      ((h : ℤ) : ℚ) * 3600) / 60⌋ = (m : ℤ) := by
    have e : ((h : ℚ) * 3600 + (m : ℚ) * 60 + (s : ℚ) + (ms : ℚ) / 1000) -
        ((h : ℤ) : ℚ) * 3600 = (m : ℚ) * 60 + (s : ℚ) + (ms : ℚ) / 1000 := by
      push_cast
      ring
    rw [e, Int.floor_eq_iff]
    constructor
    · rw [le_div_iff₀ (by norm_num : (0:ℚ) < 60)]
      push_cast
      linarith
    · rw [div_lt_iff₀ (by norm_num : (0:ℚ) < 60)]
      push_cast
      linarith
  have f3 : ⌊((h : ℚ) * 3600 + (m : ℚ) * 60 + (s : ℚ) + (ms : ℚ) / 1000) -
      ((h : ℤ) : ℚ) * 3600 - ((m : ℤ) : ℚ) * 60⌋ = (s : ℤ) := by
    have e : ((h : ℚ) * 3600 + (m : ℚ) * 60 + (s : ℚ) + (ms : ℚ) / 1000) -
        ((h : ℤ) : ℚ) * 3600 - ((m : ℤ) : ℚ) * 60 = (s : ℚ) + (ms : ℚ) / 1000 := by
      push_cast
      ring
    rw [e, Int.floor_eq_iff]
    constructor
    · push_cast
      linarith
    · push_cast
      linarith
  have f4 : ⌊(h : ℚ) * 3600 + (m : ℚ) * 60 + (s : ℚ) + (ms : ℚ) / 1000⌋ =
      ((h * 3600 + m * 60 + s : ℕ) : ℤ) := by
    rw [Int.floor_eq_iff]
    constructor
    · push_cast
      linarith
    · push_cast
      linarith
  have f5 : ⌊(((h : ℚ) * 3600 + (m : ℚ) * 60 + (s : ℚ) + (ms : ℚ) / 1000) -
      (((h * 3600 + m * 60 + s : ℕ) : ℤ) : ℚ)) * 1000 + 1 / 2⌋ = (ms : ℤ) := by
    have e : (((h : ℚ) * 3600 + (m : ℚ) * 60 + (s : ℚ) + (ms : ℚ) / 1000) -
        (((h * 3600 + m * 60 + s : ℕ) : ℤ) : ℚ)) * 1000 + 1 / 2 = (ms : ℚ) + 1 / 2 := by
      push_cast
      ring
    rw [e, Int.floor_eq_iff]
    constructor
    · push_cast
      linarith
    · push_cast
      linarith
  simp only [secondsToTs, jsRound, ratFloor_eq]
  rw [f1, f2, f3, f4, f5]
  simp only [intRepr_coe, mkTs]

/-- C7: for every well-formed timestamp string of the canonical form
`HH:MM:SS.mmm` (two-digit hour, minute and second fields in range, three-digit
millisecond field), formatting the result of parsing it reproduces the original
string exactly, and for every non-negative seconds value representable at
millisecond resolution (below 100 hours) parsing the formatted string returns
exactly that value. -/
theorem tsRoundTrip (h m s ms : Nat) (hh : h ≤ 99) (hm : m ≤ 59) (hs : s ≤ 59)
    (hms : ms ≤ 999) :
    secondsToTs (tsToSeconds (mkTs h m s ms)) = mkTs h m s ms ∧
    tsToSeconds (secondsToTs ((h : ℚ) * 3600 + (m : ℚ) * 60 + (s : ℚ) + (ms : ℚ) / 1000)) =
      (h : ℚ) * 3600 + (m : ℚ) * 60 + (s : ℚ) + (ms : ℚ) / 1000 := by
  have hh' : h < 100 := by omega
  have hm' : m < 100 := by omega
  have hs' : s < 100 := by omega
  have hms' : ms < 1000 := by omega
  constructor
  · rw [tsToSeconds_mkTs h m s ms hh' hm' hs' hms', secondsToTs_val h m s ms hm hs hms]
  · rw [secondsToTs_val h m s ms hm hs hms, tsToSeconds_mkTs h m s ms hh' hm' hs' hms']

theorem tsRoundTrip_witness :
    (1 ≤ 99 ∧ 2 ≤ 59 ∧ 3 ≤ 59 ∧ 45 ≤ 999) ∧
    (secondsToTs (tsToSeconds (mkTs 1 2 3 45)) = mkTs 1 2 3 45 ∧
      tsToSeconds (secondsToTs ((1 : ℚ) * 3600 + (2 : ℚ) * 60 + (3 : ℚ) + (45 : ℚ) / 1000)) =
        (1 : ℚ) * 3600 + (2 : ℚ) * 60 + (3 : ℚ) + (45 : ℚ) / 1000) :=
  ⟨by decide, by
    have := tsRoundTrip 1 2 3 45 (by decide) (by decide) (by decide) (by decide)
    simpa using this⟩

theorem intRepr_toNat (z : ℤ) (hz : 0 ≤ z) : z.repr = Nat.repr z.toNat := by
  conv_lhs => rw [← Int.toNat_of_nonneg hz]
  exact intRepr_coe _

/-- C8 (amended): for every non-negative seconds value below 100 hours whose
fractional part rounds to at most 999 milliseconds — in particular every value
of millisecond resolution — `secondsToTs` returns a string of the exact shape
`HH:MM:SS.mmm` (two zero-padded digits for hours, minutes and seconds, exactly
three zero-padded digits for milliseconds), with the millisecond field equal to
the fractional part rounded to the nearest integer.  The unamended claim is
false: a fractional part that rounds to 1000 milliseconds produces a four-digit
millisecond field (see the counterexample). -/
theorem secondsToTs_shape (q : ℚ) (h0 : 0 ≤ q) (h1 : q < 360000)
    (hmsr : jsRound ((q - ((Rat.floor q : ℤ) : ℚ)) * 1000) ≤ 999) :
    ∃ h m s ms : Nat, h ≤ 99 ∧ m ≤ 59 ∧ s ≤ 59 ∧ ms ≤ 999 ∧
      secondsToTs q = mkTs h m s ms ∧
      (ms : ℤ) = jsRound ((q - ((Rat.floor q : ℤ) : ℚ)) * 1000) := by
  rw [jsRound, ratFloor_eq, ratFloor_eq] at hmsr
  have hH0 : (0 : ℤ) ≤ ⌊q / 3600⌋ := Int.floor_nonneg.mpr (by positivity)
  have hH1 : ⌊q / 3600⌋ ≤ 99 := by
    have : ⌊q / 3600⌋ < 100 := Int.floor_lt.mpr (by
      rw [div_lt_iff₀ (by norm_num : (0:ℚ) < 3600)]
      push_cast
      linarith)
    omega
  have hrem0 : 0 ≤ q - ((⌊q / 3600⌋ : ℤ) : ℚ) * 3600 := by
    have hle : ((⌊q / 3600⌋ : ℤ) : ℚ) ≤ q / 3600 := Int.floor_le (q / 3600)
    nlinarith
  have hrem1 : q - ((⌊q / 3600⌋ : ℤ) : ℚ) * 3600 < 3600 := by
    have hlt : q / 3600 < ((⌊q / 3600⌋ : ℤ) : ℚ) + 1 := Int.lt_floor_add_one (q / 3600)
    nlinarith
  have hM0 : (0 : ℤ) ≤ ⌊(q - ((⌊q / 3600⌋ : ℤ) : ℚ) * 3600) / 60⌋ :=
    Int.floor_nonneg.mpr (by positivity)
  have hM1 : ⌊(q - ((⌊q / 3600⌋ : ℤ) : ℚ) * 3600) / 60⌋ ≤ 59 := by
    have : ⌊(q - ((⌊q / 3600⌋ : ℤ) : ℚ) * 3600) / 60⌋ < 60 := Int.floor_lt.mpr (by
      rw [div_lt_iff₀ (by norm_num : (0:ℚ) < 60)]
      push_cast
      linarith)
    omega
  have hrm0 : 0 ≤ q - ((⌊q / 3600⌋ : ℤ) : ℚ) * 3600 -
      ((⌊(q - ((⌊q / 3600⌋ : ℤ) : ℚ) * 3600) / 60⌋ : ℤ) : ℚ) * 60 := by
    have hle : ((⌊(q - ((⌊q / 3600⌋ : ℤ) : ℚ) * 3600) / 60⌋ : ℤ) : ℚ) ≤
        (q - ((⌊q / 3600⌋ : ℤ) : ℚ) * 3600) / 60 :=
      Int.floor_le _
    nlinarith
  have hrm1 : q - ((⌊q / 3600⌋ : ℤ) : ℚ) * 3600 -
      ((⌊(q - ((⌊q / 3600⌋ : ℤ) : ℚ) * 3600) / 60⌋ : ℤ) : ℚ) * 60 < 60 := by
    have hlt : (q - ((⌊q / 3600⌋ : ℤ) : ℚ) * 3600) / 60 <
        ((⌊(q - ((⌊q / 3600⌋ : ℤ) : ℚ) * 3600) / 60⌋ : ℤ) : ℚ) + 1 :=
      Int.lt_floor_add_one _
    nlinarith
  have hS0 : (0 : ℤ) ≤ ⌊q - ((⌊q / 3600⌋ : ℤ) : ℚ) * 3600 -
      ((⌊(q - ((⌊q / 3600⌋ : ℤ) : ℚ) * 3600) / 60⌋ : ℤ) : ℚ) * 60⌋ :=
    Int.floor_nonneg.mpr hrm0
  have hS1 : ⌊q - ((⌊q / 3600⌋ : ℤ) : ℚ) * 3600 -
      ((⌊(q - ((⌊q / 3600⌋ : ℤ) : ℚ) * 3600) / 60⌋ : ℤ) : ℚ) * 60⌋ ≤ 59 := by
    have : ⌊q - ((⌊q / 3600⌋ : ℤ) : ℚ) * 3600 -
        ((⌊(q - ((⌊q / 3600⌋ : ℤ) : ℚ) * 3600) / 60⌋ : ℤ) : ℚ) * 60⌋ < 60 :=
      Int.floor_lt.mpr (by push_cast; linarith)
    omega
  have hR0 : (0 : ℤ) ≤ ⌊(q - ((⌊q⌋ : ℤ) : ℚ)) * 1000 + 1 / 2⌋ := by
    apply Int.floor_nonneg.mpr
    have : ((⌊q⌋ : ℤ) : ℚ) ≤ q := Int.floor_le q
    nlinarith
  refine ⟨⌊q / 3600⌋.toNat,
    ⌊(q - ((⌊q / 3600⌋ : ℤ) : ℚ) * 3600) / 60⌋.toNat,
    ⌊q - ((⌊q / 3600⌋ : ℤ) : ℚ) * 3600 -
      ((⌊(q - ((⌊q / 3600⌋ : ℤ) : ℚ) * 3600) / 60⌋ : ℤ) : ℚ) * 60⌋.toNat,
    ⌊(q - ((⌊q⌋ : ℤ) : ℚ)) * 1000 + 1 / 2⌋.toNat,
    by omega, by omega, by omega, by omega, ?_, ?_⟩
  · simp only [secondsToTs, jsRound, ratFloor_eq, mkTs]
    rw [intRepr_toNat _ hH0, intRepr_toNat _ hM0, intRepr_toNat _ hS0, intRepr_toNat _ hR0]
  · rw [jsRound, ratFloor_eq, ratFloor_eq, Int.toNat_of_nonneg hR0]

theorem secondsToTs_shape_witness :
    ((0 : ℚ) ≤ (3723 : ℚ) + 45 / 1000 ∧ (3723 : ℚ) + 45 / 1000 < 360000 ∧
      jsRound ((((3723 : ℚ) + 45 / 1000) -
        ((Rat.floor ((3723 : ℚ) + 45 / 1000) : ℤ) : ℚ)) * 1000) ≤ 999) ∧
    (∃ h m s ms : Nat, h ≤ 99 ∧ m ≤ 59 ∧ s ≤ 59 ∧ ms ≤ 999 ∧
      secondsToTs ((3723 : ℚ) + 45 / 1000) = mkTs h m s ms ∧
      (ms : ℤ) = jsRound ((((3723 : ℚ) + 45 / 1000) -
        ((Rat.floor ((3723 : ℚ) + 45 / 1000) : ℤ) : ℚ)) * 1000)) :=
  ⟨⟨by norm_num, by norm_num, by with_unfolding_all decide⟩,
    secondsToTs_shape ((3723 : ℚ) + 45 / 1000) (by norm_num) (by norm_num)
      (by with_unfolding_all decide)⟩

/-- C8 counterexample: at `0.9996` seconds the formatter emits a four-digit
millisecond field (`Math.round` of the fractional part yields `1000` and
`padStart` never truncates), so the output is not of the shape
`HH:MM:SS.mmm`. -/
theorem secondsToTs_msOverflow :
    secondsToTs ((9996 : ℚ) / 10000) = "00:00:00.1000" ∧
    (secondsToTs ((9996 : ℚ) / 10000)).length = 13 ∧
    (0 : ℚ) ≤ (9996 : ℚ) / 10000 ∧ (9996 : ℚ) / 10000 < 360000 :=
  ⟨by with_unfolding_all rfl, by with_unfolding_all rfl, by norm_num, by norm_num⟩

/-- C9: for every PCM byte buffer (including the empty one) and in-range sample
rate and channel count, the WAV encoder returns a buffer of length exactly
`44 + len pcm` whose header stores byte rate `rate*channels*2`, block align
`channels*2`, bits per sample 16, the given channel count and sample rate,
RIFF chunk size `36 + len pcm` and data chunk size `len pcm`, followed by the
PCM payload unchanged. -/
theorem makeWav_spec (pcm : List Nat) (rate channels : Nat)
    (hch : channels * 2 ≤ 65535) (hrate : rate ≤ 4294967295)
    (hbr : rate * channels * 2 ≤ 4294967295) (hlen : 36 + pcm.length ≤ 4294967295) :
    ∃ w, makeWav pcm rate channels = some w ∧
      w.length = 44 + pcm.length ∧
      readU32LE w 4 = 36 + pcm.length ∧
      readU16LE w 22 = channels ∧
      readU32LE w 24 = rate ∧
      readU32LE w 28 = rate * channels * 2 ∧
      readU16LE w 32 = channels * 2 ∧
      readU16LE w 34 = 16 ∧
      readU32LE w 40 = pcm.length ∧
      w.drop 44 = pcm := by
  rw [makeWav]
  rw [if_pos ⟨by omega, by omega, by omega, by omega, by omega, by omega⟩]
  refine ⟨_, rfl, ?_, ?_, ?_, ?_, ?_, ?_, ?_, ?_, ?_⟩
  · simp [u16le, u32le]
    try omega
  · simp only [readU32LE, u16le, u32le, List.cons_append, List.nil_append,
      List.getD_cons_succ, List.getD_cons_zero]
    try omega
  · simp only [readU16LE, u16le, u32le, List.cons_append, List.nil_append,
      List.getD_cons_succ, List.getD_cons_zero]
    try omega
  · simp only [readU32LE, u16le, u32le, List.cons_append, List.nil_append,
      List.getD_cons_succ, List.getD_cons_zero]
    try omega
  · simp only [readU32LE, u16le, u32le, List.cons_append, List.nil_append,
      List.getD_cons_succ, List.getD_cons_zero]
    try omega
  · simp only [readU16LE, u16le, u32le, List.cons_append, List.nil_append,
      List.getD_cons_succ, List.getD_cons_zero]
    try omega
  · simp only [readU16LE, u16le, u32le, List.cons_append, List.nil_append,
      List.getD_cons_succ, List.getD_cons_zero]
    try omega
  · simp only [readU32LE, u16le, u32le, List.cons_append, List.nil_append,
      List.getD_cons_succ, List.getD_cons_zero]
    try omega
  · simp only [u16le, u32le, List.cons_append, List.nil_append]
    simp [List.drop_succ_cons]

theorem makeWav_spec_witness :
    ((1 : Nat) * 2 ≤ 65535 ∧ (8000 : Nat) ≤ 4294967295 ∧
      8000 * 1 * 2 ≤ 4294967295 ∧ 36 + ([1, 2, 3] : List Nat).length ≤ 4294967295) ∧
    (∃ w, makeWav [1, 2, 3] 8000 1 = some w ∧
      w.length = 44 + ([1, 2, 3] : List Nat).length ∧
      readU32LE w 4 = 36 + ([1, 2, 3] : List Nat).length ∧
      readU16LE w 22 = 1 ∧
      readU32LE w 24 = 8000 ∧
      readU32LE w 28 = 8000 * 1 * 2 ∧
      readU16LE w 32 = 1 * 2 ∧
      readU16LE w 34 = 16 ∧
      readU32LE w 40 = ([1, 2, 3] : List Nat).length ∧
      w.drop 44 = [1, 2, 3]) :=
  ⟨by decide, makeWav_spec [1, 2, 3] 8000 1 (by decide) (by decide) (by decide) (by decide)⟩

/-! ## Association-list and chunking lemmas -/

theorem lookupA_putA_self {α : Type} (l : List (String × α)) (k : String) (v : α) :
    lookupA (putA l k v) k = some v := by
  induction l with
  | nil => simp [putA, lookupA]
  | cons p rest ih =>
    obtain ⟨pk, pv⟩ := p
    by_cases h : pk = k
    · simp [putA, h, lookupA]
    · simp [putA, h, lookupA, ih]

theorem lookupA_putA_ne {α : Type} (l : List (String × α)) (k k2 : String) (v : α)
    (h : k ≠ k2) : lookupA (putA l k v) k2 = lookupA l k2 := by
  induction l with
  | nil => simp [putA, lookupA, h]
  | cons p rest ih =>
    obtain ⟨pk, pv⟩ := p
    by_cases hp : pk = k
    · subst hp
      simp [putA, lookupA, h]
    · simp [putA, hp, lookupA, ih]

theorem mem_putA {α : Type} (l : List (String × α)) (k : String) (v : α)
    (x : String × α) : x ∈ putA l k v → x = (k, v) ∨ x ∈ l := by
  induction l with
  | nil =>
    intro hx
    simpa [putA] using hx
  | cons p rest ih =>
    obtain ⟨pk, pv⟩ := p
    intro hx
    by_cases hp : pk = k
    · subst hp
      simp only [putA, if_pos rfl, eq_self_iff_true, if_true, List.mem_cons] at hx
      rcases hx with hx | hx
      · exact Or.inl hx
      · exact Or.inr (List.mem_cons_of_mem _ hx)
    · simp only [putA, if_neg hp, List.mem_cons] at hx
      rcases hx with hx | hx
      · exact Or.inr (by simp [hx])
      · rcases ih hx with h2 | h2
        · exact Or.inl h2
        · exact Or.inr (List.mem_cons_of_mem _ h2)

theorem takeBytes_eq (buf : List Nat) (c : Nat) :
    takeBytes buf c = (buf.take c, buf.drop c) := by
  rw [takeBytes]
  split
  · rename_i h
    rw [List.take_of_length_le h, List.drop_of_length_le h]
  · rfl

theorem chunkLoopF_join (fuel : Nat) : ∀ (bpc : Nat) (buf : List Nat),
    (chunkLoopF fuel bpc buf).1.flatten ++ (chunkLoopF fuel bpc buf).2 = buf := by
  induction fuel with
  | zero =>
    intro bpc buf
    simp [chunkLoopF]
  | succ f ih =>
    intro bpc buf
    rw [chunkLoopF]
    split
    · rename_i h
      simp only [takeBytes_eq, List.flatten_cons, List.append_assoc, ih]
      exact List.take_append_drop bpc buf
    · simp

theorem chunkLoop_join (bpc : Nat) (buf : List Nat) :
    (chunkLoop bpc buf).1.flatten ++ (chunkLoop bpc buf).2 = buf :=
  chunkLoopF_join buf.length bpc buf

theorem chunkLoopF_rem_lt (fuel : Nat) : ∀ (bpc : Nat) (buf : List Nat), 0 < bpc →
    buf.length ≤ fuel → (chunkLoopF fuel bpc buf).2.length < bpc := by
  induction fuel with
  | zero =>
    intro bpc buf hb hf
    simp only [chunkLoopF]
    omega
  | succ f ih =>
    intro bpc buf hb hf
    rw [chunkLoopF]
    split
    · rename_i h
      simp only [takeBytes_eq]
      exact ih bpc (buf.drop bpc) hb (by simp only [List.length_drop]; omega)
    · rename_i h
      simp only
      omega

theorem chunkLoop_rem_lt (bpc : Nat) (buf : List Nat) (hb : 0 < bpc) :
    (chunkLoop bpc buf).2.length < bpc :=
  chunkLoopF_rem_lt buf.length bpc buf hb (Nat.le_refl _)

theorem chunkLoopF_small (fuel bpc : Nat) (buf : List Nat) (hs : buf.length < bpc) :
    chunkLoopF fuel bpc buf = ([], buf) := by
  cases fuel with
  | zero => rfl
  | succ f =>
    rw [chunkLoopF]
    rw [if_neg]
    omega

theorem chunkLoop_small (bpc : Nat) (buf : List Nat) (hs : buf.length < bpc) :
    chunkLoop bpc buf = ([], buf) :=
  chunkLoopF_small buf.length bpc buf hs

theorem chunkLoopF_exact (bpc : Nat) (hb : 0 < bpc) :
    ∀ (n fuel : Nat) (buf : List Nat), buf.length = n * bpc → buf.length ≤ fuel →
      (chunkLoopF fuel bpc buf).1.length = n ∧
      (∀ c ∈ (chunkLoopF fuel bpc buf).1, c.length = bpc) ∧
      (chunkLoopF fuel bpc buf).2 = [] := by
  intro n
  induction n with
  | zero =>
    intro fuel buf hlen _
    have hnil : buf = [] := List.eq_nil_of_length_eq_zero (by omega)
    subst hnil
    cases fuel with
    | zero => simp [chunkLoopF]
    | succ f =>
      rw [chunkLoopF]
      rw [if_neg (by simp only [List.length_nil]; omega)]
      simp
  | succ k ih =>
    intro fuel buf hlen hfuel
    have hsucc : (k + 1) * bpc = k * bpc + bpc := Nat.succ_mul k bpc
    have hge : bpc ≤ buf.length := by omega
    cases fuel with
    | zero =>
      exact absurd hfuel (by omega)
    | succ f =>
      rw [chunkLoopF]
      rw [if_pos ⟨hb, hge⟩]
      simp only [takeBytes_eq]
      have hdrop : (List.drop bpc buf).length = k * bpc := by
        simp only [List.length_drop]
        omega
      obtain ⟨ih1, ih2, ih3⟩ := ih f (List.drop bpc buf) hdrop
        (by simp only [List.length_drop]; omega)
      refine ⟨by simpa using ih1, ?_, by simpa using ih3⟩
      intro c hc
      simp only [List.mem_cons] at hc
      rcases hc with hc | hc
      · subst hc
        simp only [List.length_take]
        omega
      · exact ih2 c hc

theorem chunkLoop_exact (bpc : Nat) (hb : 0 < bpc) :
    ∀ (n : Nat) (buf : List Nat), buf.length = n * bpc →
      (chunkLoop bpc buf).1.length = n ∧
      (∀ c ∈ (chunkLoop bpc buf).1, c.length = bpc) ∧
      (chunkLoop bpc buf).2 = [] := by
  intro n buf hlen
  exact chunkLoopF_exact bpc hb n buf.length buf hlen (Nat.le_refl _)

theorem lookupA_mem {α : Type} (l : List (String × α)) (k : String) (v : α)
    (h : lookupA l k = some v) : (k, v) ∈ l := by
  induction l with
  | nil => simp [lookupA] at h
  | cons p rest ih =>
    obtain ⟨pk, pv⟩ := p
    by_cases hp : pk = k
    · subst hp
      simp only [lookupA, if_pos rfl, eq_self_iff_true, if_true, Option.some.injEq] at h
      subst h
      exact List.mem_cons_self _ _
    · simp only [lookupA, if_neg hp] at h
      exact List.mem_cons_of_mem _ (ih h)

/-- C5: after any ingestion call every speaker's pending buffer holds strictly
fewer than bytes-per-chunk bytes (the invariant is preserved); for a speaker
starting with an empty (or absent) pending buffer, ingesting less than one
chunk of PCM enqueues no work item, and ingesting exactly `N` chunks of PCM
enqueues exactly `N` items — each of exactly bytes-per-chunk bytes, all for
that speaker — and leaves a zero-length remainder buffered. -/
theorem handlePcm_chunking (st : GState) (nowNs : Nat) (recId userId : String)
    (rate channels : Nat) (pcm : List Nat) (N : Nat)
    (hbpc : 0 < (sessionFor st nowNs recId rate channels).bytesPerChunk) :
    (bufInv st → bufInv (handlePcm st nowNs recId rate channels pcm userId)) ∧
    ((userFor (sessionFor st nowNs recId rate channels) userId).buf = [] →
      (pcm.length < (sessionFor st nowNs recId rate channels).bytesPerChunk →
        (lookupA (handlePcm st nowNs recId rate channels pcm userId).sessions recId).map
            Session.queue =
          some (sessionFor st nowNs recId rate channels).queue) ∧
      (pcm.length = N * (sessionFor st nowNs recId rate channels).bytesPerChunk →
        ∃ items,
          (lookupA (handlePcm st nowNs recId rate channels pcm userId).sessions recId).map
              Session.queue =
            some ((sessionFor st nowNs recId rate channels).queue ++ items) ∧
          items.length = N ∧
          (∀ it ∈ items, it.userId = userId ∧
            it.buf.length = (sessionFor st nowNs recId rate channels).bytesPerChunk) ∧
          ((lookupA (handlePcm st nowNs recId rate channels pcm userId).sessions recId).bind
            (fun s => (lookupA s.users userId).map UserState.buf)) = some [])) := by
  constructor
  · intro hinv
    intro p hp
    simp only [handlePcm] at hp
    rcases mem_putA _ _ _ _ hp with hp2 | hp2
    · subst hp2
      intro q hq
      simp only at hq ⊢
      rcases mem_putA _ _ _ _ hq with hq2 | hq2
      · subst hq2
        exact chunkLoop_rem_lt _ _ hbpc
      · -- an untouched speaker of the target session
        cases hlk : lookupA st.sessions recId with
        | none =>
          rw [sessionFor, hlk] at hq2
          simp [newSession] at hq2
        | some s0 =>
          rw [sessionFor, hlk] at hq2
          show q.2.buf.length < (sessionFor st nowNs recId rate channels).bytesPerChunk
          rw [sessionFor, hlk]
          exact hinv (recId, s0) (lookupA_mem _ _ _ hlk) q hq2
    · exact hinv p hp2
  · intro hfresh
    have hbuf : (userFor (sessionFor st nowNs recId rate channels) userId).buf ++ pcm = pcm := by
      rw [hfresh, List.nil_append]
    constructor
    · intro hsmall
      simp only [handlePcm, hbuf, lookupA_putA_self, Option.map_some',
        chunkLoop_small _ _ hsmall]
      simp
    · intro hexact
      obtain ⟨hlen, hall, hrem⟩ :=
        chunkLoop_exact (sessionFor st nowNs recId rate channels).bytesPerChunk hbpc N pcm
          hexact
      refine ⟨((chunkLoop (sessionFor st nowNs recId rate channels).bytesPerChunk pcm).1).map
        (fun c => { userId := userId, buf := c }), ?_, ?_, ?_, ?_⟩
      · simp only [handlePcm, hbuf, lookupA_putA_self, Option.map_some']
      · simpa using hlen
      · intro it hit
        simp only [List.mem_map] at hit
        obtain ⟨c, hc, hceq⟩ := hit
        subst hceq
        exact ⟨rfl, hall c hc⟩
      · simp [handlePcm, hbuf, lookupA_putA_self, hrem]

theorem handlePcm_chunking_witness :
    (0 < (sessionFor emptyGState 0 "r" 1 1).bytesPerChunk) ∧
    ((bufInv emptyGState →
        bufInv (handlePcm emptyGState 0 "r" 1 1 (List.replicate 40 7) "a")) ∧
      ((userFor (sessionFor emptyGState 0 "r" 1 1) "a").buf = [] →
        ((List.replicate 40 7 : List Nat).length < (sessionFor emptyGState 0 "r" 1 1).bytesPerChunk →
          (lookupA (handlePcm emptyGState 0 "r" 1 1 (List.replicate 40 7) "a").sessions "r").map
              Session.queue =
            some (sessionFor emptyGState 0 "r" 1 1).queue) ∧
        ((List.replicate 40 7 : List Nat).length = 2 * (sessionFor emptyGState 0 "r" 1 1).bytesPerChunk →
          ∃ items,
            (lookupA (handlePcm emptyGState 0 "r" 1 1 (List.replicate 40 7) "a").sessions "r").map
                Session.queue =
              some ((sessionFor emptyGState 0 "r" 1 1).queue ++ items) ∧
            items.length = 2 ∧
            (∀ it ∈ items, it.userId = "a" ∧
              it.buf.length = (sessionFor emptyGState 0 "r" 1 1).bytesPerChunk) ∧
            ((lookupA (handlePcm emptyGState 0 "r" 1 1 (List.replicate 40 7) "a").sessions "r").bind
              (fun s => (lookupA s.users "a").map UserState.buf)) = some []))) :=
  ⟨by decide, handlePcm_chunking emptyGState 0 "r" "a" 1 1 (List.replicate 40 7) 2 (by decide)⟩

theorem stopTails_eq (us : List (String × UserState)) :
    stopTails us = (us.filterMap fun p => if 0 < p.2.buf.length then
        some { userId := p.1, buf := p.2.buf } else none,
      us.map fun p => if 0 < p.2.buf.length then (p.1, { p.2 with buf := [] }) else p) := by
  induction us with
  | nil => rfl
  | cons p rest ih =>
    obtain ⟨pk, pu⟩ := p
    by_cases h : 0 < pu.buf.length
    · simp [stopTails, ih, h]
    · simp [stopTails, ih, h]

theorem tails_count_notmem (us : List (String × UserState)) (k : String)
    (hk : k ∉ us.map Prod.fst) :
    ((us.filterMap fun p => if 0 < p.2.buf.length then
        some ({ userId := p.1, buf := p.2.buf } : QueueItem) else none).countP
      (fun it => it.userId == k)) = 0 := by
  induction us with
  | nil => rfl
  | cons p rest ih =>
    obtain ⟨pk, pu⟩ := p
    simp only [List.map_cons, List.mem_cons] at hk
    push_neg at hk
    have hbk : (pk == k) = false := beq_false_of_ne (Ne.symm hk.1)
    by_cases h : 0 < pu.buf.length
    · simp only [List.filterMap_cons, if_pos h, List.countP_cons]
      rw [ih hk.2]
      simp [hbk]
    · simp only [List.filterMap_cons, if_neg h]
      exact ih hk.2

theorem tails_count_mem (us : List (String × UserState)) (p : String × UserState)
    (hnd : (us.map Prod.fst).Nodup) (hp : p ∈ us) :
    ((us.filterMap fun q => if 0 < q.2.buf.length then
        some ({ userId := q.1, buf := q.2.buf } : QueueItem) else none).countP
      (fun it => it.userId == p.1)) = if 0 < p.2.buf.length then 1 else 0 := by
  induction us with
  | nil => simp at hp
  | cons q rest ih =>
    obtain ⟨qk, qu⟩ := q
    simp only [List.map_cons, List.nodup_cons] at hnd
    simp only [List.mem_cons] at hp
    rcases hp with hp | hp
    · subst hp
      by_cases h : 0 < qu.buf.length
      · simp only [List.filterMap_cons, if_pos h, List.countP_cons]
        rw [tails_count_notmem rest qk hnd.1]
        simp [h]
      · simp only [List.filterMap_cons, if_neg h]
        rw [tails_count_notmem rest qk hnd.1]
    · have hne : qk ≠ p.1 := by
        intro he
        exact hnd.1 (he ▸ (List.mem_map_of_mem Prod.fst hp))
      have hbk : (qk == p.1) = false := beq_false_of_ne hne
      by_cases h : 0 < qu.buf.length
      · simp only [List.filterMap_cons, if_pos h, List.countP_cons]
        rw [ih hnd.2 hp]
        simp [hbk]
      · simp only [List.filterMap_cons, if_neg h]
        exact ih hnd.2 hp

/-- C6: stopping an existing session enqueues exactly one final (possibly
shorter than bytes-per-chunk) work item per speaker whose pending buffer is
non-empty — carrying exactly that buffer — and zero items for speakers with an
empty pending buffer; it empties every speaker's pending buffer (keeping the
speaker set unchanged), stamps the session's end time with the monotonic
clock value, and marks the session closed. -/
theorem stopEnqueue_spec (sess : Session) (nowNs : Nat)
    (hnd : (sess.users.map Prod.fst).Nodup) :
    (stopEnqueue sess nowNs).queue = sess.queue ++
      (sess.users.filterMap fun p => if 0 < p.2.buf.length then
        some { userId := p.1, buf := p.2.buf } else none) ∧
    (∀ q ∈ (stopEnqueue sess nowNs).users, q.2.buf = []) ∧
    (stopEnqueue sess nowNs).users.map Prod.fst = sess.users.map Prod.fst ∧
    (stopEnqueue sess nowNs).endNs = some nowNs ∧
    (stopEnqueue sess nowNs).closed = true ∧
    (∀ p ∈ sess.users,
      (((stopEnqueue sess nowNs).queue.drop sess.queue.length).countP
        (fun it => it.userId == p.1)) = if 0 < p.2.buf.length then 1 else 0) := by
  refine ⟨?_, ?_, ?_, ?_, ?_, ?_⟩
  · simp [stopEnqueue, stopTails_eq]
  · intro q hq
    simp only [stopEnqueue, stopTails_eq] at hq
    simp only [List.mem_map] at hq
    obtain ⟨p, hp, hpe⟩ := hq
    by_cases h : 0 < p.2.buf.length
    · rw [if_pos h] at hpe
      subst hpe
      rfl
    · rw [if_neg h] at hpe
      subst hpe
      exact List.eq_nil_of_length_eq_zero (by omega)
  · simp only [stopEnqueue, stopTails_eq, List.map_map]
    apply List.map_congr_left
    intro p _
    by_cases h : 0 < p.2.buf.length
    · simp [h]
    · simp [h]
  · rfl
  · rfl
  · intro p hp
    simp only [stopEnqueue, stopTails_eq]
    rw [List.drop_left]
    exact tails_count_mem sess.users p hnd hp

theorem stopEnqueue_spec_witness :
    ((sessW.users.map Prod.fst).Nodup) ∧
    ((stopEnqueue sessW 5).queue = sessW.queue ++
        (sessW.users.filterMap fun p => if 0 < p.2.buf.length then
          some { userId := p.1, buf := p.2.buf } else none) ∧
      (∀ q ∈ (stopEnqueue sessW 5).users, q.2.buf = []) ∧
      (stopEnqueue sessW 5).users.map Prod.fst = sessW.users.map Prod.fst ∧
      (stopEnqueue sessW 5).endNs = some 5 ∧
      (stopEnqueue sessW 5).closed = true ∧
      (∀ p ∈ sessW.users,
        (((stopEnqueue sessW 5).queue.drop sessW.queue.length).countP
          (fun it => it.userId == p.1)) = if 0 < p.2.buf.length then 1 else 0)) :=
  ⟨by decide, stopEnqueue_spec sessW 5 (by decide)⟩

/-- C4 counterexample: ingesting a structured audio message with a valid
recording id but an empty PCM payload is not a no-op — a session (with a
speaker state) is created.  The `if (!pcm) return` guard on server.ts line 361
never fires because a Node `Buffer` is a truthy object even when empty. -/
theorem emptyPayload_creates_session :
    (handleAudioMessage emptyGState 0
      { recordingId := some "r", rate := none, channels := none, userId := none,
        payload := [] }).sessions ≠ [] ∧
    (lookupA (handleAudioMessage emptyGState 0
      { recordingId := some "r", rate := none, channels := none, userId := none,
        payload := [] }).sessions "r").isSome = true := by
  constructor
  · decide
  · decide

/-- C4 (amended): ingesting an audio message with an empty (or absent)
recording id is a no-op — the state is completely unchanged.  Ingesting an
empty PCM payload under a valid recording id, however, is not a no-op: it
still lazily creates the session and the speaker state; it merely enqueues no
work item, leaves the target session's queue unchanged, and leaves every
existing speaker's pending buffer unchanged. -/
theorem handleAudioMessage_empties (st : GState) (nowNs : Nat) (msg : AudioMsg)
    (hinv : (userFor (sessionFor st nowNs (strOr msg.recordingId "") (numOr msg.rate 48000)
        (numOr msg.channels 2)) (strOr msg.userId "unknown")).buf.length <
      (sessionFor st nowNs (strOr msg.recordingId "") (numOr msg.rate 48000)
        (numOr msg.channels 2)).bytesPerChunk) :
    (strOr msg.recordingId "" = "" → handleAudioMessage st nowNs msg = st) ∧
    (msg.payload = [] → strOr msg.recordingId "" ≠ "" →
      ∃ sess,
        lookupA (handleAudioMessage st nowNs msg).sessions (strOr msg.recordingId "") =
          some sess ∧
        sess.queue = (sessionFor st nowNs (strOr msg.recordingId "") (numOr msg.rate 48000)
          (numOr msg.channels 2)).queue ∧
        (lookupA sess.users (strOr msg.userId "unknown")).isSome = true ∧
        (∀ uid u0,
          lookupA (sessionFor st nowNs (strOr msg.recordingId "") (numOr msg.rate 48000)
            (numOr msg.channels 2)).users uid = some u0 →
          ∃ u1, lookupA sess.users uid = some u1 ∧ u1.buf = u0.buf)) := by
  constructor
  · intro hempty
    rw [handleAudioMessage, if_pos hempty]
  · intro hpayload hne
    rw [handleAudioMessage, if_neg hne]
    rw [handlePcm]
    simp only [hpayload, List.append_nil]
    rw [chunkLoop_small _ _ hinv]
    refine ⟨_, lookupA_putA_self _ _ _, ?_, ?_, ?_⟩
    · simp
    · simp only
      by_cases hu : (lookupA (sessionFor st nowNs (strOr msg.recordingId "")
          (numOr msg.rate 48000) (numOr msg.channels 2)).users
          (strOr msg.userId "unknown")).isSome
      · rw [lookupA_putA_self]
        rfl
      · rw [lookupA_putA_self]
        rfl
    · intro uid u0 hu0
      by_cases huid : strOr msg.userId "unknown" = uid
      · subst huid
        refine ⟨_, lookupA_putA_self _ _ _, ?_⟩
        simp only [userFor, hu0]
      · rw [lookupA_putA_ne _ _ _ _ huid]
        exact ⟨u0, hu0, rfl⟩

theorem handleAudioMessage_empties_witness :
    ((userFor (sessionFor emptyGState 0
        (strOr (some "r") "") (numOr none 48000) (numOr none 2))
        (strOr none "unknown")).buf.length <
      (sessionFor emptyGState 0 (strOr (some "r") "") (numOr none 48000)
        (numOr none 2)).bytesPerChunk) ∧
    ((strOr (some "r") "" = "" →
        handleAudioMessage emptyGState 0
          { recordingId := some "r", rate := none, channels := none, userId := none,
            payload := [] } = emptyGState) ∧
      (([] : List Nat) = [] → strOr (some "r") "" ≠ "" →
        ∃ sess,
          lookupA (handleAudioMessage emptyGState 0
            { recordingId := some "r", rate := none, channels := none, userId := none,
              payload := [] }).sessions (strOr (some "r") "") = some sess ∧
          sess.queue = (sessionFor emptyGState 0 (strOr (some "r") "") (numOr none 48000)
            (numOr none 2)).queue ∧
          (lookupA sess.users (strOr none "unknown")).isSome = true ∧
          (∀ uid u0,
            lookupA (sessionFor emptyGState 0 (strOr (some "r") "") (numOr none 48000)
              (numOr none 2)).users uid = some u0 →
            ∃ u1, lookupA sess.users uid = some u1 ∧ u1.buf = u0.buf))) :=
  ⟨by decide,
    handleAudioMessage_empties emptyGState 0
      { recordingId := some "r", rate := none, channels := none, userId := none,
        payload := [] } (by decide)⟩

theorem handlePcm_eq (st : GState) (n : Nat) (recId : String) (rate channels : Nat)
    (p : List Nat) (uid : String) :
    handlePcm st n recId rate channels p uid =
      { st with sessions := (putA st.sessions recId
        { sessionFor st n recId rate channels with
          users := putA (sessionFor st n recId rate channels).users uid
            { userFor (sessionFor st n recId rate channels) uid with
              buf := (chunkLoop (sessionFor st n recId rate channels).bytesPerChunk
                ((userFor (sessionFor st n recId rate channels) uid).buf ++ p)).2 }
          queue := (sessionFor st n recId rate channels).queue ++
            ((chunkLoop (sessionFor st n recId rate channels).bytesPerChunk
              ((userFor (sessionFor st n recId rate channels) uid).buf ++ p)).1.map
              fun c => { userId := uid, buf := c }) }) } := rfl

theorem map_buf_mk (uid : String) (l : List (List Nat)) :
    l.map (QueueItem.buf ∘ fun c => ({ userId := uid, buf := c } : QueueItem)) = l :=
  List.map_id'' (fun _ => rfl) l

theorem sessionFor_put (st : GState) (S : Session) (n : Nat) (recId : String)
    (r c : Nat) :
    sessionFor { st with sessions := putA st.sessions recId S } n recId r c = S := by
  rw [sessionFor]
  simp only [lookupA_putA_self]

theorem userFor_any (sess : Session) (uid : String) :
    userFor sess uid =
      (lookupA sess.users uid).getD
        { buf := [], elapsedSec := 0, chunkIndex := 0, userName := none } := by
  rw [userFor]
  cases lookupA sess.users uid with
  | none => rfl
  | some u => rfl

/-- C10: audio arriving as a raw binary frame (the fallback path for messages
that do not decode as a structured envelope), and audio in a structured
message lacking a `userId` field, are both attributed to the fixed speaker
identity `"unknown"`: within one session all such unattributed audio
accumulates into a single shared speaker state — the session's user map holds
exactly the one key `"unknown"`, every enqueued work item belongs to it, and
its queued chunks plus remaining buffer together hold exactly the
concatenation of both payloads in arrival order. -/
theorem unattributed_audio_shared_state (st0 : GState) (n1 n2 : Nat) (recId : String)
    (rate channels : Nat) (p1 p2 : List Nat)
    (hfresh : lookupA st0.sessions recId = none) (hne : recId ≠ "") :
    ∃ u sess,
      lookupA (handleAudioMessage
          (handleRawFrame st0 n1 (rawCtx recId rate channels) p1)
          n2 (noUserMsg recId p2)).sessions recId = some sess ∧
      sess.users = [("unknown", u)] ∧
      (∀ it ∈ sess.queue, it.userId = "unknown") ∧
      (sess.queue.map QueueItem.buf).flatten ++ u.buf = p1 ++ p2 := by
  have h1 : handleRawFrame st0 n1 (rawCtx recId rate channels) p1 =
      handlePcm (subscribe st0 recId) n1 recId rate channels p1 "unknown" := rfl
  rw [h1]
  have h2 : handleAudioMessage
      (handlePcm (subscribe st0 recId) n1 recId rate channels p1 "unknown") n2
      (noUserMsg recId p2) =
      handlePcm (handlePcm (subscribe st0 recId) n1 recId rate channels p1 "unknown") n2
        recId 48000 2 p2 "unknown" := by
    rw [noUserMsg, handleAudioMessage]
    simp only [strOr, numOr, if_neg hne]
  rw [h2]
  have hA : (subscribe st0 recId).sessions = st0.sessions := rfl
  have e1 : sessionFor (subscribe st0 recId) n1 recId rate channels =
      newSession recId rate channels
        ((lookupA (subscribe st0 recId).prefs recId).getD false) n1 := by
    rw [sessionFor, hA, hfresh]
  simp only [handlePcm_eq, e1, sessionFor_put, userFor_any, newSession, lookupA,
    lookupA_putA_self, Option.getD_some, Option.getD_none, List.nil_append]
  refine ⟨unknownUser2 rate channels p1 p2, _, rfl, ?_, ?_, ?_⟩
  · simp [putA, unknownUser2]
  · intro it hit
    simp only [putA, List.nil_append, List.append_nil, List.mem_append,
      List.mem_map] at hit
    rcases hit with hit | hit
    all_goals
      obtain ⟨c, _, hceq⟩ := hit
      subst hceq
      rfl
  · simp only [putA, lookupA, eq_self_iff_true, if_true, Option.getD_some,
      List.nil_append, List.append_nil, List.map_append, List.map_map,
      List.flatten_append, unknownUser2, map_buf_mk]
    rw [List.append_assoc,
      chunkLoop_join (rate * channels * 2 * 10)
        ((chunkLoop (rate * channels * 2 * 10) p1).2 ++ p2),
      ← List.append_assoc,
      chunkLoop_join (rate * channels * 2 * 10) p1]

theorem unattributed_audio_shared_state_witness :
    (lookupA emptyGState.sessions "r" = none ∧ "r" ≠ "") ∧
    (∃ u sess,
      lookupA (handleAudioMessage
          (handleRawFrame emptyGState 0 (rawCtx "r" 1 1) [0, 1])
          0 (noUserMsg "r" [2])).sessions "r" = some sess ∧
      sess.users = [("unknown", u)] ∧
      (∀ it ∈ sess.queue, it.userId = "unknown") ∧
      (sess.queue.map QueueItem.buf).flatten ++ u.buf = [0, 1] ++ [2]) :=
  ⟨⟨by decide, by decide⟩,
    unattributed_audio_shared_state emptyGState 0 0 "r" 1 1 [0, 1] [2] (by decide) (by decide)⟩

theorem processChunk_preserves (oracle : Oracle) (st : GState) (sess : Session)
    (uid : String) (pcm : List Nat) :
    (processChunk oracle st sess uid pcm).1.subscribers = st.subscribers ∧
    (processChunk oracle st sess uid pcm).1.prefs = st.prefs ∧
    (processChunk oracle st sess uid pcm).1.notifications = st.notifications ∧
    (processChunk oracle st sess uid pcm).1.sessions = st.sessions ∧
    (processChunk oracle st sess uid pcm).2.closed = sess.closed ∧
    (processChunk oracle st sess uid pcm).2.id = sess.id ∧
    (processChunk oracle st sess uid pcm).2.vttPath = sess.vttPath ∧
    (processChunk oracle st sess uid pcm).2.queue = sess.queue := by
  cases hu : lookupA sess.users uid with
  | none =>
    simp [processChunk, hu]
  | some u =>
    cases hw : makeWav pcm sess.rate sess.channels with
    | none =>
      simp [processChunk, hu, hw]
    | some wav =>
      cases hr : oracle st.calls with
      | none =>
        simp [processChunk, hu, hw, hr]
      | some raw =>
        simp [processChunk, hu, hw, hr]

theorem drainItems_preserves (oracle : Oracle) (items : List QueueItem) :
    ∀ (st : GState) (sess : Session),
      (drainItems oracle items st sess).1.subscribers = st.subscribers ∧
      (drainItems oracle items st sess).1.prefs = st.prefs ∧
      (drainItems oracle items st sess).1.notifications = st.notifications ∧
      (drainItems oracle items st sess).1.sessions = st.sessions ∧
      (drainItems oracle items st sess).2.closed = sess.closed ∧
      (drainItems oracle items st sess).2.id = sess.id ∧
      (drainItems oracle items st sess).2.vttPath = sess.vttPath := by
  induction items with
  | nil =>
    intro st sess
    exact ⟨rfl, rfl, rfl, rfl, rfl, rfl, rfl⟩
  | cons item rest ih =>
    intro st sess
    rw [drainItems]
    obtain ⟨h1, h2, h3, h4, h5, h6, h7, _⟩ :=
      processChunk_preserves oracle st sess item.userId item.buf
    obtain ⟨g1, g2, g3, g4, g5, g6, g7⟩ :=
      ih (processChunk oracle st sess item.userId item.buf).1
        (processChunk oracle st sess item.userId item.buf).2
    exact ⟨g1.trans h1, g2.trans h2, g3.trans h3, g4.trans h4, g5.trans h5, g6.trans h6,
      g7.trans h7⟩

theorem processQueue_finalize_notifies (oracle : Oracle) (st1 : GState) (recId : String)
    (S : Session) (hlk : lookupA st1.sessions recId = some S) (hproc : S.processing = false)
    (hclosed : S.closed = true) (hid : S.id = recId)
    (hsubs : 0 < (lookupA st1.subscribers recId).getD 0) :
    (processQueue oracle st1 recId).notifications =
      st1.notifications ++ [{ recordingId := recId, vttPath := some S.vttPath }] := by
  simp only [processQueue, hlk]
  rw [if_neg (by rw [hproc]; exact Bool.false_ne_true)]
  obtain ⟨g1, g2, g3, g4, g5, g6, g7⟩ :=
    drainItems_preserves oracle S.queue st1 { S with processing := true }
  have hclosed2 : (drainItems oracle S.queue st1 { S with processing := true }).2.closed =
      true := by
    rw [g5]
    exact hclosed
  rw [if_pos (by simp only [hclosed2])]
  have hsubs2 : 0 < (lookupA (drainItems oracle S.queue st1
      { S with processing := true }).1.subscribers S.id).getD 0 := by
    rw [g1, hid]
    exact hsubs
  rw [if_pos hsubs2]
  simp only [g3]
  rw [hid]

/-- C2 (amended): for a session that exists at stop time (not already
draining), the completion notification sent to its subscribers always carries
the session's non-null caption file path — whatever the transcription oracle
did, i.e. whether or not any cue text was ever produced.  The null caption
path is sent only on the no-session path of `handleStop`.  (The unamended
claim — null when no cue text was produced — is refuted by the
counterexample.) -/
theorem handleStop_notifies (oracle : Oracle) (st : GState) (nowNs : Nat) (recId : String)
    (sess : Session) (hlk : lookupA st.sessions recId = some sess) (hid : sess.id = recId)
    (hproc : sess.processing = false)
    (hsubs : 0 < (lookupA st.subscribers recId).getD 0) :
    (handleStop oracle st nowNs recId).notifications =
      st.notifications ++ [{ recordingId := recId, vttPath := some sess.vttPath }] := by
  rw [handleStop, hlk]
  exact processQueue_finalize_notifies oracle
    { st with sessions := putA st.sessions recId (stopEnqueue sess nowNs) } recId
    (stopEnqueue sess nowNs) (lookupA_putA_self _ _ _) hproc rfl hid hsubs

theorem handleStop_notifies_witness :
    (lookupA stW.sessions "r" = some sessA20 ∧ sessA20.id = "r" ∧
      sessA20.processing = false ∧ 0 < (lookupA stW.subscribers "r").getD 0) ∧
    (handleStop oracleNone stW 3 "r").notifications =
      stW.notifications ++ [{ recordingId := "r", vttPath := some sessA20.vttPath }] :=
  ⟨⟨by decide, by decide, by decide, by decide⟩,
    handleStop_notifies oracleNone stW 3 "r" sessA20 (by decide) (by decide) (by decide)
      (by decide)⟩

/-- C2 counterexample: the session exists at stop time, every transcription
call fails, so no cue text is ever produced and the cumulative caption file is
never created — yet the completion notification carries the non-null caption
path, not `null` as the claim states. -/
theorem doneMsg_nonNull_without_cues :
    stRunFail.notifications =
      [{ recordingId := "r", vttPath := some ".tmp/recordings/r/audio.vtt" }] ∧
    lookupA stRunFail.files ".tmp/recordings/r/audio.vtt" = none := by
  constructor
  · decide
  · decide

/-- C3: evaluation of the drain at the failing input — a single queued chunk
for speaker `a` whose transcription call throws.  The chunk was attempted
(one adapter call) but the temporary WAV file written for it is still present
after the drain: the unlink calls at server.ts lines 164-169 are only reached
after a successful transcription and stitch, so the files are not deleted
"regardless of outcome" as the spec requires. -/
theorem failedChunk_leaves_tempWav :
    (lookupA stRunFail.files "/tmp/discord-rec-chunks/r-a-0000.wav").isSome = true ∧
    stRunFail.calls = 1 ∧
    lookupA stRunFail.sessions "r" = none := by
  refine ⟨?_, ?_, ?_⟩
  · decide
  · decide
  · decide

/-- C1: evaluation of the drain at the failing input — two 10-second chunks
queued for speaker `a`, the adapter throwing on the first call and succeeding
on the second with a cue at `00:00:00.000 --> 00:00:01.000`.  Both chunks are
attempted (two adapter calls), but the second chunk's cues are stitched into
the cumulative caption file at offset 0 — `elapsedSec` advances only after a
successful transcription (server.ts lines 160-162 sit after the throwing
await), so the failed first chunk's 10 seconds are not counted and no
`00:00:10.000` timestamp appears, contrary to the claim's required
second-chunk offset. -/
theorem failedChunk_offset_not_counted :
    stRunTwo.calls = 2 ∧
    lookupA stRunTwo.files ".tmp/recordings/r/audio.vtt" =
      some (FileData.txt "WEBVTT\n\n\n00:00:00.000 --> 00:00:01.000\nhello\n\n") ∧
    (("WEBVTT\n\n\n00:00:00.000 --> 00:00:01.000\nhello\n\n").splitOn "00:00:10").length
      = 1 := by
  refine ⟨?_, ?_, ?_⟩
  · with_unfolding_all decide
  · with_unfolding_all decide
  · with_unfolding_all decide
